import Mathlib

/-!
Verification development for the LEO voice-enabled desktop assistant
(source file `LEO_FINAL.py`).  Strings are modelled as lists of characters;
the Python string operations used by the program (`lower`, `strip`,
substring test, `replace`, `startswith`, `split`, and the few regular
expressions it uses) are embedded as executable functions below, and the
command router, number parser, disambiguation selection, file-search turn,
output path and wake-word extraction are translated from the source.
External effectors (network, OS calls, audio capture results) enter as
parameters of a `TurnEnv` environment.
-/

/-- Strings are modelled as lists of characters. -/
abbrev Str := List Char

/-- Conversion from Lean string literals to the character-list model. -/
def str (s : String) : Str := s.data

/-- Python `\s` / `str.strip` whitespace (space, tab, newline, CR, VT, FF). -/
def isSpaceB (c : Char) : Bool :=
  decide (c.toNat = 32 ∨ c.toNat = 9 ∨ c.toNat = 10 ∨ c.toNat = 13 ∨
          c.toNat = 11 ∨ c.toNat = 12)

/-- ASCII decimal digit, Python regex `\d`. -/
def isDigitB (c : Char) : Bool := decide (48 ≤ c.toNat ∧ c.toNat ≤ 57)

/-- ASCII uppercase letter. -/
def isUpperB (c : Char) : Bool := decide (65 ≤ c.toNat ∧ c.toNat ≤ 90)

/-- Python regex `\w`: letter, digit or underscore (ASCII fragment). -/
def isWordCharB (c : Char) : Bool :=
  decide ((65 ≤ c.toNat ∧ c.toNat ≤ 90) ∨ (97 ≤ c.toNat ∧ c.toNat ≤ 122) ∨
          (48 ≤ c.toNat ∧ c.toNat ≤ 57) ∨ c.toNat = 95)

/-- Python `str.lower` on one character (ASCII fragment). -/
def lowerChar (c : Char) : Char :=
  if isUpperB c then Char.ofNat (c.toNat + 32) else c

/-- Python `str.lower`. -/
def pyLower (s : Str) : Str := s.map lowerChar

/-- Python `str.strip`: drop whitespace from both ends. -/
def pyStrip (s : Str) : Str :=
  ((s.dropWhile isSpaceB).reverse.dropWhile isSpaceB).reverse

/-- Python substring test `pat in s`. -/
def containsSub (pat : Str) (s : Str) : Bool :=
  match s with
  | [] => pat.isEmpty
  | _ :: rest => pat.isPrefixOf s || containsSub pat rest

/-- The text following the first occurrence of `pat` in `s`
(Python `s.split(pat, 1)[1]` when `pat` occurs in `s`). -/
def afterFirst (pat : Str) (s : Str) : Str :=
  match s with
  | [] => []
  | _ :: rest => if pat.isPrefixOf s then s.drop pat.length else afterFirst pat rest

/-- Fuel-indexed recursion for `removeAll`; every step consumes at least
one character, so fuel equal to the length of the string suffices. -/
def removeAllF (pat : Str) : Nat → Str → Str
  | 0, _ => []
  | _ + 1, [] => []
  | fuel + 1, c :: rest =>
    if pat ≠ [] ∧ pat.isPrefixOf (c :: rest)
    then removeAllF pat fuel (rest.drop (pat.length - 1))
    else c :: removeAllF pat fuel rest

/-- Python `s.replace(pat, "")` for a non-empty pattern: remove every
(left-to-right, non-overlapping) occurrence of `pat`. -/
def removeAll (pat : Str) (s : Str) : Str := removeAllF pat s.length s

/-- Fuel-indexed recursion for `splitNW`; every step consumes at least one
character, so fuel equal to the length of the string suffices. -/
def splitNWF : Nat → Str → List Str
  | 0, _ => [[]]
  | _ + 1, [] => [[]]
  | fuel + 1, c :: rest =>
    if isWordCharB c then
      match splitNWF fuel rest with
      | [] => [[c]]
      | t :: ts => (c :: t) :: ts
    else [] :: splitNWF fuel (rest.dropWhile (fun d => !isWordCharB d))

/-- Python `re.split(r'\W+', s)`: the pieces between maximal runs of
non-word characters, with an empty piece at an end that starts or finishes
with a non-word character (as `re.split` produces). -/
def splitNW (s : Str) : List Str := splitNWF s.length s

/-- The first maximal run of decimal digits in `s`
(Python `re.search(r'\d+', s)`), or `[]` when `s` has no digit. -/
def firstDigitRun (s : Str) : Str :=
  match s with
  | [] => []
  | c :: rest => if isDigitB c then c :: rest.takeWhile isDigitB else firstDigitRun rest

/-- Numeric value of a digit string (Python `int` on a digit run). -/
def natOfDigits (ds : Str) : Nat :=
  ds.foldl (fun a c => 10 * a + (c.toNat - 48)) 0

/-- Whether a word-boundary match of `pat` starts exactly at the head of
`t`, with `prev` the character just before `t` (regex `\b pat \b` for a
pattern that starts and ends with word characters). -/
def wbHere (pat : Str) (prev : Option Char) (t : Str) : Bool :=
  pat.isPrefixOf t &&
  (match prev with | none => true | some c => !isWordCharB c) &&
  (match t.drop pat.length with | [] => true | d :: _ => !isWordCharB d)

/-- Scanning helper for `matchWB`. -/
def matchWBAux (pat : Str) (prev : Option Char) (t : Str) : Bool :=
  match t with
  | [] => wbHere pat prev []
  | c :: rest => wbHere pat prev (c :: rest) || matchWBAux pat (some c) rest

/-- Python `re.search(r'\b pat \b', s)` as a Boolean, for a pattern whose
first and last characters are word characters. -/
def matchWB (pat : Str) (s : Str) : Bool := matchWBAux pat none s

/-- Match of `volume\s*(\d{1,3})` at the start of `t`: skip the literal
`volume`, greedily skip whitespace, then take at most three digits. -/
def volTailAt (t : Str) : Option Nat :=
  if (str "volume").isPrefixOf t then
    let v := (t.drop 6).dropWhile isSpaceB
    let ds := (v.takeWhile isDigitB).take 3
    if ds = [] then none else some (natOfDigits ds)
  else none

/-- Match of `(?:set\s*)?volume\s*(\d{1,3})` at the start of `t`: the
optional greedy `set\s*` branch is tried first, then skipped. -/
def matchVolAt (t : Str) : Option Nat :=
  match (if (str "set").isPrefixOf t
         then volTailAt ((t.drop 3).dropWhile isSpaceB) else none) with
  | some n => some n
  | none => volTailAt t

/-- Python `re.search(r'(?:set\s*)?volume\s*(\d{1,3})', s)`: the captured
number of the leftmost match, if any. -/
def volAbsSearch (s : Str) : Option Nat :=
  match s with
  | [] => none
  | _ :: rest =>
    match matchVolAt s with
    | some n => some n
    | none => volAbsSearch rest

/-- Backtracking tail of the weather regex: after the `in`/`of` tag,
`\s+(.+)` must match, `\s+` greedy over at most `k` leading whitespace
characters and `(.+)` a non-empty run of non-newline characters. -/
def weatherTail (v : Str) (k : Nat) : Option Str :=
  match k with
  | 0 => none
  | k + 1 =>
    let city := (v.drop (k + 1)).takeWhile (fun c => c != '\n')
    if city = [] then weatherTail v k else some city

/-- Match of `\s+(.+)` at the start of `v`. -/
def weatherSpaces (v : Str) : Option Str :=
  weatherTail v (v.takeWhile isSpaceB).length

/-- Match of `(?:in|of)\s+(.+)` at the start of `u` (`in` tried first). -/
def weatherTag (u : Str) : Option Str :=
  match (if (str "in").isPrefixOf u then weatherSpaces (u.drop 2) else none) with
  | some city => some city
  | none => if (str "of").isPrefixOf u then weatherSpaces (u.drop 2) else none

/-- Python `re.search(r'weather (?:in|of)\s+(.+)', s)`: the captured city
of the leftmost match, if any. -/
def weatherCity (s : Str) : Option Str :=
  match s with
  | [] => none
  | _ :: rest =>
    match (if (str "weather ").isPrefixOf s then weatherTag (s.drop 8) else none) with
    | some city => some city
    | none => weatherCity rest

/-- The WORD_NUMS table of `LEO_FINAL.py`, lines 387-399. -/
def wordNums : List (Str × Int) :=
  [(str "zero", 0), (str "oh", 0), (str "none", 0), (str "no", 0),
   (str "one", 1), (str "first", 1),
   (str "two", 2), (str "second", 2), (str "to", 2), (str "too", 2),
   (str "three", 3), (str "third", 3),
   (str "four", 4), (str "for", 4), (str "fourth", 4),
   (str "five", 5), (str "fifth", 5),
   (str "six", 6), (str "sixth", 6),
   (str "seven", 7), (str "seventh", 7),
   (str "eight", 8), (str "ate", 8), (str "eighth", 8),
   (str "nine", 9), (str "ninth", 9),
   (str "ten", 10), (str "tenth", 10)]

/-- Lookup of a token in WORD_NUMS (Python `t in WORD_NUMS` / `WORD_NUMS[t]`). -/
def lookupWN (t : Str) : Option Int :=
  (wordNums.find? (fun p => p.1 == t)).map (fun p => p.2)

/-- The token-scanning loop of `parse_spoken_number`: the table value of
the first token that is a WORD_NUMS key. -/
def firstWordVal (ts : List Str) : Option Int :=
  match ts with
  | [] => none
  | t :: rest =>
    match lookupWN t with
    | some v => some v
    | none => firstWordVal rest

/-- Function `parse_spoken_number` of `LEO_FINAL.py`, lines 401-414: normalize with
`strip().lower()`, return -1 on the empty string, else the value of the
first digit run if there is one, else the WORD_NUMS value of the first
token that has one, else -1. -/
def parse_spoken_number (s0 : Str) : Int :=
  if pyLower (pyStrip s0) = [] then -1
  else if firstDigitRun (pyLower (pyStrip s0)) ≠ [] then
    Int.ofNat (natOfDigits (firstDigitRun (pyLower (pyStrip s0))))
  else
    match firstWordVal (splitNW (pyLower (pyStrip s0))) with
    | some v => v
    | none => -1

/-- Function `get_user_selection_via_voice_or_input` of `LEO_FINAL.py`, lines
416-438.  `voice` is the transcription of the voice capture (`none` when
capture or transcription raised), `typed` the integer parsed from typed
input (`none` when reading or `int(...)` raised).  `typedFallback` is the
typed-input half of lines 430-438. -/
def typedFallback (maxIndex : Int) : Option Int → Int
  | some n => if 0 ≤ n ∧ n ≤ maxIndex then n else -1
  | none => -1

/-- The whole selection dialogue: try the voice capture first; when its
parse is out of range (or the capture failed), fall back to typed input. -/
def get_user_selection_via_voice_or_input
    (maxIndex : Int) : Option Str → Option Int → Int
  | some said, typed =>
    if 0 ≤ parse_spoken_number said ∧ parse_spoken_number said ≤ maxIndex
    then parse_spoken_number said
    else typedFallback maxIndex typed
  | none, typed => typedFallback maxIndex typed

/-- Greeting phrases answered by "Hello! How can I assist you?". -/
def greetA : List Str :=
  [str "hello", str "hi", str "hey", str "good morning",
   str "good afternoon", str "good evening"]

/-- Greeting phrases answered by the "doing well" reply. -/
def greetB : List Str :=
  [str "how are you", str "how are you doing", str "what\x27s up", str "whats up"]

/-- Farewell phrases answered by "Goodbye!". -/
def farewellList : List Str :=
  [str "bye", str "exit", str "quit", str "goodbye", str "stop"]

/-- The `file_keywords` trigger list of `process_command`, lines 553-556. -/
def fileKeywords : List Str :=
  [str "find file", str "search file", str "fetch file", str "open file",
   str "find", str "search", str "fetch", str "where", str "locate",
   str "show file", str "get file"]

/-- The command intent selected by `process_command`, one constructor per
rule of the if/elif chain (parameters are the extracted arguments). -/
inductive Intent where
  | greeting (resp : Str)
  | wiki (topic : Str)
  | openYoutube
  | openGoogle
  | webSearch (term : Str)
  | play (song : Str)
  | timeQuery
  | dateQuery
  | joke
  | weather (city : Str)
  | volume (action : Str)
  | setVolume (percent : Nat)
  | brightnessUp
  | brightnessDown
  | screenshot
  | shutdown
  | restart
  | sleepCmd
  | internet
  | cpu
  | ram
  | fileMissing
  | fileSearch (term : Str)
  | gemini (prompt : Str)
deriving DecidableEq

/-- The search term recovered by stripping every file keyword out of the
normalized command, lines 558-562. -/
def stripFileTerm (q : Str) : Str :=
  pyStrip (fileKeywords.foldl (fun acc k => removeAll k acc) q)

/-- The trigger test of line 557: `any(k in q for k in file_keywords)`. -/
def hasFileKeyword (q : Str) : Bool :=
  fileKeywords.any (fun k => containsSub k q)

/-- The missing-parameter test of line 563:
`if not search_terms or len(search_terms) < 2`. -/
def fileTermShort (q : Str) : Bool :=
  decide (stripFileTerm q = [] ∨ (stripFileTerm q).length < 2)

/-- The rule chain of `process_command` (lines 444-590) applied to an
already normalized command, returning the selected intent and its
extracted parameters. -/
def routeCore (q : Str) : Intent :=
  if greetA.contains q then .greeting (str "Hello! How can I assist you?")
  else if greetB.contains q then
    .greeting (str "I\x27m doing well, thank you! How can I help?")
  else if farewellList.contains q then .greeting (str "Goodbye!")
  else if containsSub (str "wikipedia") q then
    .wiki (pyStrip (removeAll (str "wikipedia") (removeAll (str "search wikipedia for") q)))
  else if containsSub (str "open youtube") q then .openYoutube
  else if containsSub (str "open google") q then .openGoogle
  else if (str "search ").isPrefixOf q then .webSearch (pyStrip (removeAll (str "search") q))
  else if (str "play ").isPrefixOf q then .play (pyStrip (removeAll (str "play") q))
  else if containsSub (str "time") q then .timeQuery
  else if containsSub (str "date") q then .dateQuery
  else if containsSub (str "joke") q then .joke
  else if containsSub (str "weather") q then .weather ((weatherCity q).getD [])
  else if matchWB (str "volume up") q then .volume (str "up")
  else if matchWB (str "volume down") q then .volume (str "down")
  else if containsSub (str "mute") q && !containsSub (str "unmute") q then
    .volume (str "mute")
  else if containsSub (str "unmute") q then .volume (str "unmute")
  else if (volAbsSearch q).isSome then .setVolume ((volAbsSearch q).getD 0)
  else if containsSub (str "brightness up") q then .brightnessUp
  else if containsSub (str "brightness down") q then .brightnessDown
  else if containsSub (str "screenshot") q then .screenshot
  else if containsSub (str "shutdown") q then .shutdown
  else if containsSub (str "restart") q then .restart
  else if containsSub (str "sleep") q then .sleepCmd
  else if containsSub (str "internet") q then .internet
  else if containsSub (str "cpu") q then .cpu
  else if containsSub (str "ram") q then .ram
  else if hasFileKeyword q then
    (if fileTermShort q then .fileMissing
     else .fileSearch (stripFileTerm q))
  else .gemini q

/-- The normalization `q = q.lower().strip()` performed at line 442. -/
def normalizeCmd (q : Str) : Str := pyStrip (pyLower q)

/-- Routing half of `process_command`: normalize, then run the rule chain. -/
def route (q : Str) : Intent := routeCore (normalizeCmd q)

/-- Disjunction of every rule predicate of the chain, in rule order; the
fallback fires exactly when this is false on the normalized command. -/
def anyRuleMatches (q : Str) : Bool :=
  greetA.contains q || greetB.contains q || farewellList.contains q ||
  containsSub (str "wikipedia") q || containsSub (str "open youtube") q ||
  containsSub (str "open google") q || (str "search ").isPrefixOf q ||
  (str "play ").isPrefixOf q || containsSub (str "time") q ||
  containsSub (str "date") q || containsSub (str "joke") q ||
  containsSub (str "weather") q || matchWB (str "volume up") q ||
  matchWB (str "volume down") q ||
  (containsSub (str "mute") q && !containsSub (str "unmute") q) ||
  containsSub (str "unmute") q || (volAbsSearch q).isSome ||
  containsSub (str "brightness up") q || containsSub (str "brightness down") q ||
  containsSub (str "screenshot") q || containsSub (str "shutdown") q ||
  containsSub (str "restart") q || containsSub (str "sleep") q ||
  containsSub (str "internet") q || containsSub (str "cpu") q ||
  containsSub (str "ram") q || hasFileKeyword q

/-- Disjunction of the rule predicates evaluated before the mute rule
(everything up to and including "volume down"). -/
def matchesBeforeMute (q : Str) : Bool :=
  greetA.contains q || greetB.contains q || farewellList.contains q ||
  containsSub (str "wikipedia") q || containsSub (str "open youtube") q ||
  containsSub (str "open google") q || (str "search ").isPrefixOf q ||
  (str "play ").isPrefixOf q || containsSub (str "time") q ||
  containsSub (str "date") q || containsSub (str "joke") q ||
  containsSub (str "weather") q || matchWB (str "volume up") q ||
  matchWB (str "volume down") q

/-- Disjunction of the rule predicates evaluated before the file-search
rule (everything up to and including "ram"). -/
def matchesBeforeFileSearch (q : Str) : Bool :=
  matchesBeforeMute q ||
  (containsSub (str "mute") q && !containsSub (str "unmute") q) ||
  containsSub (str "unmute") q || (volAbsSearch q).isSome ||
  containsSub (str "brightness up") q || containsSub (str "brightness down") q ||
  containsSub (str "screenshot") q || containsSub (str "shutdown") q ||
  containsSub (str "restart") q || containsSub (str "sleep") q ||
  containsSub (str "internet") q || containsSub (str "cpu") q ||
  containsSub (str "ram") q

/-- Outcomes of the external collaborators that `process_command` and the
selection dialogue consult during one turn.  Pure routing does not read
any of these fields; each field records what the corresponding effector
call would return during this turn. -/
structure TurnEnv where
  search : Str → List Str
  selVoice : Option Str
  selTyped : Option Int
  openMsg : Str → Str
  geminiMsg : Str → Str
  wikiMsg : Str → Str
  timeMsg : Str
  dateMsg : Str
  jokeMsg : Str
  weatherMsg : Str → Str
  volumeMsg : Str → Str
  setVolMsg : Nat → Str
  brightUpMsg : Str
  brightDownMsg : Str
  screenshotMsg : Str
  connected : Bool
  cpuMsg : Str
  ramMsg : Str
  playOk : Bool

/-- The observable result of one `process_command` call: the returned
Response string, the path handed to `open_file` (if any file was opened),
and whether the disambiguation dialogue
`get_user_selection_via_voice_or_input` was invoked. -/
structure TurnResult where
  response : Str
  opened : Option Str
  disambiguated : Bool
deriving DecidableEq

/-- The effector half of `process_command`: given the routed intent,
produce the Response (and file-opening / disambiguation effects),
following lines 444-590 of the source. -/
def dispatch (env : TurnEnv) (i : Intent) : TurnResult :=
  match i with
  | .greeting r => ⟨r, none, false⟩
  | .wiki topic => ⟨env.wikiMsg topic, none, false⟩
  | .openYoutube => ⟨str "Opening YouTube.", none, false⟩
  | .openGoogle => ⟨str "Opening Google.", none, false⟩
  | .webSearch term => ⟨str "Searching Google for " ++ term ++ str ".", none, false⟩
  | .play song =>
    if env.playOk then ⟨str "Playing " ++ song ++ str ".", none, false⟩
    else ⟨str "Couldn\x27t play that right now.", none, false⟩
  | .timeQuery => ⟨env.timeMsg, none, false⟩
  | .dateQuery => ⟨env.dateMsg, none, false⟩
  | .joke => ⟨env.jokeMsg, none, false⟩
  | .weather city =>
    if pyStrip city = [] then ⟨str "Please specify a city.", none, false⟩
    else ⟨env.weatherMsg city, none, false⟩
  | .volume action => ⟨env.volumeMsg action, none, false⟩
  | .setVolume p => ⟨env.setVolMsg p, none, false⟩
  | .brightnessUp => ⟨env.brightUpMsg, none, false⟩
  | .brightnessDown => ⟨env.brightDownMsg, none, false⟩
  | .screenshot => ⟨env.screenshotMsg, none, false⟩
  | .shutdown => ⟨str "Shutting down.", none, false⟩
  | .restart => ⟨str "Restarting.", none, false⟩
  | .sleepCmd => ⟨str "Sleeping now.", none, false⟩
  | .internet =>
    if env.connected then ⟨str "Connected.", none, false⟩
    else ⟨str "Not connected.", none, false⟩
  | .cpu => ⟨env.cpuMsg, none, false⟩
  | .ram => ⟨env.ramMsg, none, false⟩
  | .fileMissing =>
    ⟨str "Please specify a file name, keyword, or part of it to search.", none, false⟩
  | .fileSearch term =>
    if env.search term = [] then
      ⟨str "No files found matching \x27" ++ term ++ str "\x27.", none, false⟩
    else if (env.search term).length = 1 then
      ⟨str "Found and " ++ env.openMsg ((env.search term).headD []),
       some ((env.search term).headD []), false⟩
    else
      if get_user_selection_via_voice_or_input
          (Int.ofNat (env.search term).length) env.selVoice env.selTyped = 0 then
        ⟨str "Cancelled. No file opened.", none, true⟩
      else if 1 ≤ get_user_selection_via_voice_or_input
            (Int.ofNat (env.search term).length) env.selVoice env.selTyped ∧
          get_user_selection_via_voice_or_input
            (Int.ofNat (env.search term).length) env.selVoice env.selTyped ≤
            Int.ofNat (env.search term).length then
        ⟨str "Opened: " ++ (env.search term).getD
          ((get_user_selection_via_voice_or_input
            (Int.ofNat (env.search term).length) env.selVoice
            env.selTyped).toNat - 1) [],
         some ((env.search term).getD
          ((get_user_selection_via_voice_or_input
            (Int.ofNat (env.search term).length) env.selVoice
            env.selTyped).toNat - 1) []), true⟩
      else ⟨str "Invalid choice. No file opened.", none, true⟩
  | .gemini prompt => ⟨env.geminiMsg prompt, none, false⟩

/-- Function `process_command` as one turn: route the raw query, then run the
selected rule's effector. -/
def process_command (env : TurnEnv) (q : Str) : TurnResult :=
  dispatch env (route q)

/-- One observable emission of the output path: a console print, a toast
notification, remote (Deepgram) speech, the printed fallback notice, or
local (pyttsx3) speech. -/
inductive Emission where
  | display (t : Str)
  | toast (t : Str)
  | voiceRemote (t : Str)
  | fallbackNote
  | voiceLocal (t : Str)
deriving DecidableEq

/-- Whether an emission is voice output. -/
def isVoiceE (e : Emission) : Bool :=
  match e with
  | .voiceRemote _ => true
  | .voiceLocal _ => true
  | _ => false

/-- Function `speak_and_print` of `LEO_FINAL.py`, lines 188-201, as the ordered
list of emissions it performs.  `useDG` and `hasKey` are the
`USE_DEEPGRAM_TTS` flag and presence of `DG_API_KEY`; `dgOk` tells whether
the Deepgram synthesis call succeeds this turn. -/
def speak_and_print (useDG hasKey dgOk : Bool) (text : Str) : List Emission :=
  if text = [] then []
  else
    [.display text, .toast text] ++
    (if useDG && hasKey then
      if dgOk then [.voiceRemote text]
      else [.fallbackNote, .voiceLocal text]
    else [.voiceLocal text])

/-- Function `handle_query` of `LEO_FINAL.py`, lines 592-596: print the transcript
lines, then emit the Response through `speak_and_print`. -/
def handle_query (useDG hasKey dgOk : Bool) (env : TurnEnv) (query : Str) :
    List Emission :=
  [.display (str "User: " ++ query),
   .display (str "Leo: " ++ (process_command env query).response)] ++
  speak_and_print useDG hasKey dgOk (process_command env query).response

/-- The wake word `WAKE_WORD = "leo"`. -/
def wakeWord : Str := str "leo"

/-- Candidate query extraction of `listen_for_wake_word`, lines 611-612:
for a normalized capture containing the wake word, the stripped text after
its first occurrence; otherwise no candidate. -/
def wakeCandidate (said : Str) : Option Str :=
  if containsSub wakeWord said then some (pyStrip (afterFirst wakeWord said))
  else none

/-- One iteration of the `listen_for_wake_word` loop body, lines 604-619:
`t` is the raw transcription of the capture, `f` the raw transcription of
the follow-up capture used when the candidate query is empty.  Returns the
query dispatched to `handle_query`, if any. -/
def wakeIteration (t f : Str) : Option Str :=
  if pyStrip (pyLower t) = [] then none
  else
    match wakeCandidate (pyStrip (pyLower t)) with
    | none => none
    | some q =>
      if (if q = [] then pyStrip (pyLower f) else q) = [] then none
      else some (if q = [] then pyStrip (pyLower f) else q)

/-- A concrete environment used to evaluate the model at sample inputs:
no files are found, no capture succeeds, effector messages are fixed. -/
def envEmpty : TurnEnv :=
  ⟨fun _ => [], none, none, fun p => str "Opening: " ++ p, fun _ => str "ok",
   fun _ => [], [], [], [], fun _ => [], fun _ => [], fun _ => [], [], [],
   [], true, [], [], true⟩

/-- A concrete environment in which the search finds three files and the
typed fallback selection is 2. -/
def envThree : TurnEnv :=
  ⟨fun _ => [str "a.txt", str "b.txt", str "c.txt"], none, some 2,
   fun p => str "Opening: " ++ p, fun _ => str "ok",
   fun _ => [], [], [], [], fun _ => [], fun _ => [], fun _ => [], [], [],
   [], true, [], [], true⟩

/-- A concrete environment in which the search finds exactly one file. -/
def envOne : TurnEnv :=
  ⟨fun _ => [str "a.txt"], none, none,
   fun p => str "Opening: " ++ p, fun _ => str "ok",
   fun _ => [], [], [], [], fun _ => [], fun _ => [], fun _ => [], [], [],
   [], true, [], [], true⟩

/-- A concrete environment whose conversational fallback returns the empty
string, so the turn's Response is empty. -/
def envBlank : TurnEnv :=
  ⟨fun _ => [], none, none, fun p => str "Opening: " ++ p, fun _ => [],
   fun _ => [], [], [], [], fun _ => [], fun _ => [], fun _ => [], [], [],
   [], true, [], [], true⟩

/-- A valid scalar value round-trips through `Char.ofNat`. -/
theorem toNat_ofNat_of_valid (n : Nat) (h : n.isValidChar) :
    (Char.ofNat n).toNat = n := by
  simp only [Char.ofNat, dif_pos h, Char.ofNatAux, Char.toNat, UInt32.toNat]
  rfl

/-- Scalar value of `lowerChar`. -/
theorem toNat_lowerChar (c : Char) :
    (lowerChar c).toNat = if isUpperB c then c.toNat + 32 else c.toNat := by
  unfold lowerChar
  by_cases h : isUpperB c = true
  · simp only [h, if_true]
    simp only [isUpperB, decide_eq_true_eq] at h
    exact toNat_ofNat_of_valid _ (Or.inl (by omega))
  · simp only [Bool.not_eq_true] at h
    simp [h]

/-- Lowering a character does not change whether it is whitespace. -/
theorem lowerChar_space (c : Char) : isSpaceB (lowerChar c) = isSpaceB c := by
  by_cases h : isUpperB c = true
  · have hr : 65 ≤ c.toNat ∧ c.toNat ≤ 90 := by
      simpa only [isUpperB, decide_eq_true_eq] using h
    simp only [isSpaceB, toNat_lowerChar, h, if_true, decide_eq_decide]
    omega
  · simp only [Bool.not_eq_true] at h
    simp only [isSpaceB, toNat_lowerChar, h, Bool.false_eq_true, if_false]

/-- Lowering a character does not change whether it is a digit. -/
theorem lowerChar_digit (c : Char) : isDigitB (lowerChar c) = isDigitB c := by
  by_cases h : isUpperB c = true
  · have hr : 65 ≤ c.toNat ∧ c.toNat ≤ 90 := by
      simpa only [isUpperB, decide_eq_true_eq] using h
    simp only [isDigitB, toNat_lowerChar, h, if_true, decide_eq_decide]
    omega
  · simp only [Bool.not_eq_true] at h
    simp only [isDigitB, toNat_lowerChar, h, Bool.false_eq_true, if_false]

/-- The result of `lowerChar` is never an uppercase letter. -/
theorem lowerChar_not_upper (c : Char) : isUpperB (lowerChar c) = false := by
  have ht := toNat_lowerChar c
  by_cases h : isUpperB c = true
  · simp only [h, if_true] at ht
    have hr : 65 ≤ c.toNat ∧ c.toNat ≤ 90 := by
      simpa only [isUpperB, decide_eq_true_eq] using h
    simp only [isUpperB, ht, decide_eq_false_iff_not]
    omega
  · simp only [Bool.not_eq_true] at h
    simp only [h, Bool.false_eq_true, if_false] at ht
    simp only [isUpperB, ht]
    simpa only [isUpperB] using h

/-- Lowering is idempotent on characters. -/
theorem lowerChar_idem (c : Char) : lowerChar (lowerChar c) = lowerChar c :=
  calc lowerChar (lowerChar c)
      = if isUpperB (lowerChar c) then Char.ofNat ((lowerChar c).toNat + 32)
        else lowerChar c := rfl
    _ = lowerChar c := by rw [lowerChar_not_upper]; simp

/-- Lowering fixes digits. -/
theorem lowerChar_digit_fix (c : Char) (h : isDigitB c = true) :
    lowerChar c = c := by
  have hu : isUpperB c = false := by
    simp only [isDigitB, decide_eq_true_eq] at h
    simp only [isUpperB, decide_eq_false_iff_not]
    omega
  calc lowerChar c
      = if isUpperB c then Char.ofNat (c.toNat + 32) else c := rfl
    _ = c := by rw [hu]; simp

/-- Whitespace characters are not digits. -/
theorem isSpaceB_not_digit (c : Char) (h : isSpaceB c = true) :
    isDigitB c = false := by
  simp only [isSpaceB, decide_eq_true_eq] at h
  simp only [isDigitB, decide_eq_false_iff_not]
  omega

/-- Lowering a string twice is the same as lowering it once. -/
theorem pyLower_idem (s : Str) : pyLower (pyLower s) = pyLower s := by
  induction s with
  | nil => rfl
  | cons c rest ih =>
    simp only [pyLower, List.map_cons] at *
    rw [lowerChar_idem c]
    exact congrArg _ ih

/-- Lowering commutes with dropping leading whitespace. -/
theorem dropWhile_space_pyLower (s : Str) :
    (pyLower s).dropWhile isSpaceB = pyLower (s.dropWhile isSpaceB) := by
  induction s with
  | nil => rfl
  | cons c rest ih =>
    simp only [pyLower, List.map_cons, List.dropWhile_cons, lowerChar_space]
    cases h : isSpaceB c with
    | true => simpa only [if_true] using ih
    | false => simp [pyLower]

/-- Lowering commutes with stripping. -/
theorem pyStrip_pyLower (s : Str) : pyStrip (pyLower s) = pyLower (pyStrip s) := by
  unfold pyStrip
  rw [dropWhile_space_pyLower]
  rw [show (pyLower (s.dropWhile isSpaceB)).reverse
        = pyLower (s.dropWhile isSpaceB).reverse from (List.map_reverse _ _).symm]
  rw [dropWhile_space_pyLower]
  exact (List.map_reverse _ _).symm

/-- The head of a `dropWhile` result does not satisfy the predicate. -/
theorem dropWhile_head_false (p : Char → Bool) (l : Str) :
    l.dropWhile p = [] ∨
    ∃ c rest, l.dropWhile p = c :: rest ∧ p c = false := by
  induction l with
  | nil => exact Or.inl rfl
  | cons c rest ih =>
    rw [List.dropWhile_cons]
    cases h : p c with
    | true => simpa only [if_true] using ih
    | false => exact Or.inr ⟨c, rest, by simp, h⟩

/-- Dropping twice is the same as dropping once. -/
theorem dropWhile_idem (p : Char → Bool) (l : Str) :
    (l.dropWhile p).dropWhile p = l.dropWhile p := by
  rcases dropWhile_head_false p l with h | ⟨c, rest, h, hc⟩
  · rw [h]; rfl
  · rw [h, List.dropWhile_cons, hc]; simp

/-- A list splits as its strip-from-the-right followed by a whitespace
suffix. -/
theorem dropWhile_eq_pyStrip_append (s : Str) :
    ∃ sp, s.dropWhile isSpaceB = pyStrip s ++ sp ∧
      ∀ c ∈ sp, isSpaceB c = true := by
  refine ⟨((s.dropWhile isSpaceB).reverse.takeWhile isSpaceB).reverse, ?_, ?_⟩
  · unfold pyStrip
    conv_lhs => rw [← List.reverse_reverse (s.dropWhile isSpaceB)]
    conv_lhs => rw [← List.takeWhile_append_dropWhile (p := isSpaceB)
      (l := (s.dropWhile isSpaceB).reverse)]
    rw [List.reverse_append]
  · intro c hc
    rw [List.mem_reverse] at hc
    exact List.mem_takeWhile_imp hc

/-- Stripping twice is the same as stripping once. -/
theorem pyStrip_idem (s : Str) : pyStrip (pyStrip s) = pyStrip s := by
  have hfront : (pyStrip s).dropWhile isSpaceB = pyStrip s := by
    obtain ⟨sp, hsp, _⟩ := dropWhile_eq_pyStrip_append s
    rcases dropWhile_head_false isSpaceB s with h | ⟨c, rest, h, hc⟩
    · have : pyStrip s = [] := by
        have := hsp
        rw [h] at this
        exact (List.append_eq_nil.mp this.symm).1
      rw [this]; rfl
    · rw [h] at hsp
      cases hps : pyStrip s with
      | nil => rfl
      | cons c0 r0 =>
        rw [hps] at hsp
        have hc0 : c0 = c := by
          have := hsp
          simp only [List.cons_append] at this
          exact (List.cons.injEq _ _ _ _ ▸ this :
            c = c0 ∧ rest = r0 ++ sp).1.symm
        rw [List.dropWhile_cons, hc0, hc]
        simp
  have hback : ((pyStrip s).reverse.dropWhile isSpaceB).reverse = pyStrip s := by
    have : (pyStrip s).reverse = (s.dropWhile isSpaceB).reverse.dropWhile isSpaceB := by
      unfold pyStrip
      rw [List.reverse_reverse]
    rw [this, dropWhile_idem, ← this, List.reverse_reverse]
  calc pyStrip (pyStrip s)
      = (((pyStrip s).dropWhile isSpaceB).reverse.dropWhile isSpaceB).reverse := rfl
    _ = ((pyStrip s).reverse.dropWhile isSpaceB).reverse := by rw [hfront]
    _ = pyStrip s := hback

/-- Normalization (lower, then strip) is idempotent. -/
theorem normalizeCmd_idem (q : Str) : normalizeCmd (normalizeCmd q) = normalizeCmd q := by
  unfold normalizeCmd
  rw [pyStrip_pyLower, pyStrip_idem, ← pyStrip_pyLower, pyLower_idem]

/-- Lowering does not change the leading digit run. -/
theorem takeWhile_digit_pyLower (l : Str) :
    (pyLower l).takeWhile isDigitB = l.takeWhile isDigitB := by
  induction l with
  | nil => rfl
  | cons c rest ih =>
    simp only [pyLower, List.map_cons, List.takeWhile_cons, lowerChar_digit]
    cases h : isDigitB c with
    | true =>
      simp only [if_true]
      rw [lowerChar_digit_fix c h]
      simpa only [pyLower] using congrArg (c :: ·) ih
    | false => simp

/-- Lowering does not change the first digit run. -/
theorem firstDigitRun_pyLower (l : Str) :
    firstDigitRun (pyLower l) = firstDigitRun l := by
  induction l with
  | nil => rfl
  | cons c rest ih =>
    simp only [pyLower, List.map_cons, firstDigitRun, lowerChar_digit]
    cases h : isDigitB c with
    | true =>
      simp only [if_true]
      rw [lowerChar_digit_fix c h]
      simpa only [pyLower] using congrArg (c :: ·) (takeWhile_digit_pyLower rest)
    | false => simpa only [pyLower, Bool.false_eq_true, if_false] using ih

/-- Dropping leading whitespace does not change the first digit run. -/
theorem firstDigitRun_dropWhile_space (l : Str) :
    firstDigitRun (l.dropWhile isSpaceB) = firstDigitRun l := by
  induction l with
  | nil => rfl
  | cons c rest ih =>
    rw [List.dropWhile_cons]
    cases h : isSpaceB c with
    | true =>
      simp only [if_true]
      rw [ih]
      simp only [firstDigitRun, isSpaceB_not_digit c h, Bool.false_eq_true, if_false]
    | false => simp

/-- Appending a digit-free suffix does not change the leading digit run. -/
theorem takeWhile_digit_append (l sp : Str)
    (hsp : ∀ c ∈ sp, isDigitB c = false) :
    (l ++ sp).takeWhile isDigitB = l.takeWhile isDigitB := by
  induction l with
  | nil =>
    simp only [List.nil_append, List.takeWhile_nil]
    cases sp with
    | nil => rfl
    | cons d r =>
      rw [List.takeWhile_cons, hsp d (List.mem_cons_self d r)]
      simp
  | cons c rest ih =>
    simp only [List.cons_append, List.takeWhile_cons]
    cases h : isDigitB c with
    | true => simpa using congrArg (c :: ·) ih
    | false => simp

/-- A digit-free list has an empty first digit run. -/
theorem firstDigitRun_of_no_digit (sp : Str)
    (hsp : ∀ c ∈ sp, isDigitB c = false) : firstDigitRun sp = [] := by
  induction sp with
  | nil => rfl
  | cons d r ih =>
    simp only [firstDigitRun, hsp d (List.mem_cons_self d r), Bool.false_eq_true,
      if_false]
    exact ih (fun c hc => hsp c (List.mem_cons_of_mem d hc))

/-- Appending a digit-free suffix does not change the first digit run. -/
theorem firstDigitRun_append (l sp : Str)
    (hsp : ∀ c ∈ sp, isDigitB c = false) :
    firstDigitRun (l ++ sp) = firstDigitRun l := by
  induction l with
  | nil =>
    simpa only [List.nil_append] using firstDigitRun_of_no_digit sp hsp
  | cons c rest ih =>
    simp only [List.cons_append, firstDigitRun]
    cases h : isDigitB c with
    | true => simpa using congrArg (c :: ·) (takeWhile_digit_append rest sp hsp)
    | false => simpa using ih

/-- Stripping does not change the first digit run. -/
theorem firstDigitRun_pyStrip (l : Str) :
    firstDigitRun (pyStrip l) = firstDigitRun l := by
  obtain ⟨sp, hsp, hspace⟩ := dropWhile_eq_pyStrip_append l
  have hnd : ∀ c ∈ sp, isDigitB c = false :=
    fun c hc => isSpaceB_not_digit c (hspace c hc)
  calc firstDigitRun (pyStrip l)
      = firstDigitRun (pyStrip l ++ sp) := (firstDigitRun_append _ sp hnd).symm
    _ = firstDigitRun (l.dropWhile isSpaceB) := by rw [hsp]
    _ = firstDigitRun l := firstDigitRun_dropWhile_space l

/-- A list containing a digit has a non-empty first digit run. -/
theorem firstDigitRun_ne_nil (l : Str) (h : l.any isDigitB = true) :
    firstDigitRun l ≠ [] := by
  induction l with
  | nil => simp at h
  | cons c rest ih =>
    simp only [List.any_cons, Bool.or_eq_true] at h
    simp only [firstDigitRun]
    cases hc : isDigitB c with
    | true => simp
    | false =>
      simp only [Bool.false_eq_true, if_false]
      rcases h with h | h
      · rw [hc] at h; exact absurd h (by simp)
      · exact ih h

/-- A digit-free list has any-digit false, hence an empty run. -/
theorem firstDigitRun_eq_nil (l : Str) (h : l.any isDigitB = false) :
    firstDigitRun l = [] := by
  apply firstDigitRun_of_no_digit
  intro c hc
  rw [List.any_eq_false] at h
  simpa using h c hc

/-- The token loop yields `none` when no token is a table key. -/
theorem firstWordVal_none (ts : List Str) (h : ∀ t ∈ ts, lookupWN t = none) :
    firstWordVal ts = none := by
  induction ts with
  | nil => rfl
  | cons t rest ih =>
    simp only [firstWordVal, h t (List.mem_cons_self t rest)]
    exact ih (fun u hu => h u (List.mem_cons_of_mem t hu))

/-- The token loop returns the value of the first token that is a table
key. -/
theorem firstWordVal_append (ts1 ts2 : List Str) (t : Str) (v : Int)
    (h1 : ∀ u ∈ ts1, lookupWN u = none) (hv : lookupWN t = some v) :
    firstWordVal (ts1 ++ t :: ts2) = some v := by
  induction ts1 with
  | nil => simp only [List.nil_append, firstWordVal, hv]
  | cons u rest ih =>
    simp only [List.cons_append, firstWordVal, h1 u (List.mem_cons_self u rest)]
    exact ih (fun w hw => h1 w (List.mem_cons_of_mem u hw))

/-- C2: for every input containing a run of decimal digits,
`parse_spoken_number` returns the (non-negative) value of the first digit
run of the input, regardless of any word-form numbers also present. -/
theorem c2_digit_run_wins (s : Str) (h : s.any isDigitB = true) :
    parse_spoken_number s = Int.ofNat (natOfDigits (firstDigitRun s)) ∧
    0 ≤ parse_spoken_number s := by
  have hfdr : firstDigitRun (pyLower (pyStrip s)) = firstDigitRun s := by
    rw [firstDigitRun_pyLower, firstDigitRun_pyStrip]
  have hne : firstDigitRun s ≠ [] := firstDigitRun_ne_nil s h
  have hnorm : pyLower (pyStrip s) ≠ [] := by
    intro he
    rw [he] at hfdr
    exact hne hfdr.symm
  have hmain : parse_spoken_number s = Int.ofNat (natOfDigits (firstDigitRun s)) := by
    unfold parse_spoken_number
    rw [if_neg hnorm, hfdr, if_pos hne]
  refine ⟨hmain, ?_⟩
  rw [hmain]
  exact Int.ofNat_nonneg _

/-- Witness for C2 at the spec's example "two 3". -/
theorem c2_digit_run_wins_witness :
    parse_spoken_number (str "two 3") =
      Int.ofNat (natOfDigits (firstDigitRun (str "two 3"))) ∧
    parse_spoken_number (str "two 3") = 3 :=
  ⟨(c2_digit_run_wins (str "two 3") (by decide)).1, by decide⟩

/-- C3: for every input without a decimal digit, `parse_spoken_number`
splits the normalized text on non-word-character boundaries and returns
the WORD_NUMS value of the left-most token that is a table key; if no
token is a key (in particular on empty or blank input) it returns -1; the
table contains the homophones "to"/"too", "for", "ate" and the ordinals,
and no bound on the result is checked. -/
theorem c3_word_form_table (s t : Str) (ts1 ts2 : List Str) (v : Int)
    (hnd : s.any isDigitB = false) :
    (splitNW (pyLower (pyStrip s)) = ts1 ++ t :: ts2 →
      (∀ u ∈ ts1, lookupWN u = none) → lookupWN t = some v →
      parse_spoken_number s = v) ∧
    ((∀ u ∈ splitNW (pyLower (pyStrip s)), lookupWN u = none) →
      parse_spoken_number s = -1) ∧
    (lookupWN (str "to") = some 2 ∧ lookupWN (str "too") = some 2 ∧
     lookupWN (str "for") = some 4 ∧ lookupWN (str "ate") = some 8 ∧
     lookupWN (str "first") = some 1 ∧ lookupWN (str "tenth") = some 10) := by
  have hfdr : firstDigitRun (pyLower (pyStrip s)) = [] := by
    rw [firstDigitRun_pyLower, firstDigitRun_pyStrip]
    exact firstDigitRun_eq_nil s hnd
  refine ⟨?_, ?_, by decide⟩
  · intro hsplit h1 hv
    by_cases hempty : pyLower (pyStrip s) = []
    · rw [hempty] at hsplit
      have hmem : t ∈ ts1 ++ t :: ts2 :=
        List.mem_append_right _ (List.mem_cons_self t ts2)
      rw [← hsplit] at hmem
      have ht : t = [] := by
        have : splitNW [] = [[]] := rfl
        rw [this] at hmem
        simpa using hmem
      rw [ht] at hv
      have : lookupWN [] = none := by decide
      rw [this] at hv
      exact Option.noConfusion hv
    · unfold parse_spoken_number
      rw [if_neg hempty, if_neg (fun hcon => hcon hfdr), hsplit,
        firstWordVal_append ts1 ts2 t v h1 hv]
  · intro hall
    by_cases hempty : pyLower (pyStrip s) = []
    · unfold parse_spoken_number
      rw [if_pos hempty]
    · unfold parse_spoken_number
      rw [if_neg hempty, if_neg (fun hcon => hcon hfdr),
        firstWordVal_none _ hall]

/-- Witness for C3 at the spec's example "second or third". -/
theorem c3_word_form_table_witness :
    parse_spoken_number (str "second or third") = 2 ∧
    parse_spoken_number (str "") = -1 :=
  ⟨(c3_word_form_table (str "second or third") (str "second") []
      [str "or", str "third"] 2 (by decide)).1 (by decide) (by decide) (by decide),
   (c3_word_form_table (str "") (str "") [] [] 0 (by decide)).2.1 (by decide)⟩

/-- C10: `process_command` behaves identically on `q` and on
`q.lower().strip()`: it normalizes its argument before any rule is
evaluated, so the selected rule, the extracted parameters and the turn
result depend only on the normalized text. -/
theorem c10_normalize_first (env : TurnEnv) (q : Str) :
    process_command env q = process_command env (pyStrip (pyLower q)) ∧
    route q = route (pyStrip (pyLower q)) := by
  have h : normalizeCmd (pyStrip (pyLower q)) = normalizeCmd q := normalizeCmd_idem q
  constructor
  · unfold process_command route
    rw [h]
  · unfold route
    rw [h]

/-- A Boolean `if` with literal condition `true` picks the then branch. -/
theorem ite_cond_true {a : Sort v} (x y : a) :
    (if (true : Bool) then x else y) = x := rfl

/-- A Boolean `if` with literal condition `false` picks the else branch. -/
theorem ite_cond_false {a : Sort v} (x y : a) :
    (if (false : Bool) then x else y) = y := rfl

/-- C1: routing is total and first-match-wins: when no rule predicate
matches the normalized command, `process_command` routes it to the
conversational Gemini fallback, and when some rule predicate matches, the
fallback is not selected, so exactly one rule answers every input. -/
theorem c1_total_fallback (q : Str) :
    (anyRuleMatches (normalizeCmd q) = false →
      route q = Intent.gemini (normalizeCmd q)) ∧
    (anyRuleMatches (normalizeCmd q) = true →
      route q ≠ Intent.gemini (normalizeCmd q)) := by
  unfold route
  generalize normalizeCmd q = n
  constructor
  · intro h
    unfold anyRuleMatches at h
    simp only [Bool.or_eq_false_iff] at h
    obtain ⟨⟨⟨⟨⟨⟨⟨⟨⟨⟨⟨⟨⟨⟨⟨⟨⟨⟨⟨⟨⟨⟨⟨⟨⟨⟨h1, h2⟩, h3⟩, h4⟩, h5⟩, h6⟩, h7⟩, h8⟩, h9⟩, h10⟩, h11⟩, h12⟩, h13⟩, h14⟩, h15⟩, h16⟩, h17⟩, h18⟩, h19⟩, h20⟩, h21⟩, h22⟩, h23⟩, h24⟩, h25⟩, h26⟩, h27⟩ := h
    unfold routeCore
    rw [h1, ite_cond_false,
        h2, ite_cond_false,
        h3, ite_cond_false,
        h4, ite_cond_false,
        h5, ite_cond_false,
        h6, ite_cond_false,
        h7, ite_cond_false,
        h8, ite_cond_false,
        h9, ite_cond_false,
        h10, ite_cond_false,
        h11, ite_cond_false,
        h12, ite_cond_false,
        h13, ite_cond_false,
        h14, ite_cond_false,
        h15, ite_cond_false,
        h16, ite_cond_false,
        h17, ite_cond_false,
        h18, ite_cond_false,
        h19, ite_cond_false,
        h20, ite_cond_false,
        h21, ite_cond_false,
        h22, ite_cond_false,
        h23, ite_cond_false,
        h24, ite_cond_false,
        h25, ite_cond_false,
        h26, ite_cond_false,
        h27, ite_cond_false]
  · intro hany
    unfold anyRuleMatches at hany
    unfold routeCore
    cases h1 : greetA.contains n
    case true => rw [ite_cond_true]; exact fun hcon => Intent.noConfusion hcon
    rw [ite_cond_false]
    rw [h1, Bool.false_or] at hany
    cases h2 : greetB.contains n
    case true => rw [ite_cond_true]; exact fun hcon => Intent.noConfusion hcon
    rw [ite_cond_false]
    rw [h2, Bool.false_or] at hany
    cases h3 : farewellList.contains n
    case true => rw [ite_cond_true]; exact fun hcon => Intent.noConfusion hcon
    rw [ite_cond_false]
    rw [h3, Bool.false_or] at hany
    cases h4 : containsSub (str "wikipedia") n
    case true => rw [ite_cond_true]; exact fun hcon => Intent.noConfusion hcon
    rw [ite_cond_false]
    rw [h4, Bool.false_or] at hany
    cases h5 : containsSub (str "open youtube") n
    case true => rw [ite_cond_true]; exact fun hcon => Intent.noConfusion hcon
    rw [ite_cond_false]
    rw [h5, Bool.false_or] at hany
    cases h6 : containsSub (str "open google") n
    case true => rw [ite_cond_true]; exact fun hcon => Intent.noConfusion hcon
    rw [ite_cond_false]
    rw [h6, Bool.false_or] at hany
    cases h7 : (str "search ").isPrefixOf n
    case true => rw [ite_cond_true]; exact fun hcon => Intent.noConfusion hcon
    rw [ite_cond_false]
    rw [h7, Bool.false_or] at hany
    cases h8 : (str "play ").isPrefixOf n
    case true => rw [ite_cond_true]; exact fun hcon => Intent.noConfusion hcon
    rw [ite_cond_false]
    rw [h8, Bool.false_or] at hany
    cases h9 : containsSub (str "time") n
    case true => rw [ite_cond_true]; exact fun hcon => Intent.noConfusion hcon
    rw [ite_cond_false]
    rw [h9, Bool.false_or] at hany
    cases h10 : containsSub (str "date") n
    case true => rw [ite_cond_true]; exact fun hcon => Intent.noConfusion hcon
    rw [ite_cond_false]
    rw [h10, Bool.false_or] at hany
    cases h11 : containsSub (str "joke") n
    case true => rw [ite_cond_true]; exact fun hcon => Intent.noConfusion hcon
    rw [ite_cond_false]
    rw [h11, Bool.false_or] at hany
    cases h12 : containsSub (str "weather") n
    case true => rw [ite_cond_true]; exact fun hcon => Intent.noConfusion hcon
    rw [ite_cond_false]
    rw [h12, Bool.false_or] at hany
    cases h13 : matchWB (str "volume up") n
    case true => rw [ite_cond_true]; exact fun hcon => Intent.noConfusion hcon
    rw [ite_cond_false]
    rw [h13, Bool.false_or] at hany
    cases h14 : matchWB (str "volume down") n
    case true => rw [ite_cond_true]; exact fun hcon => Intent.noConfusion hcon
    rw [ite_cond_false]
    rw [h14, Bool.false_or] at hany
    cases h15 : (containsSub (str "mute") n && !containsSub (str "unmute") n)
    case true => rw [ite_cond_true]; exact fun hcon => Intent.noConfusion hcon
    rw [ite_cond_false]
    rw [h15, Bool.false_or] at hany
    cases h16 : containsSub (str "unmute") n
    case true => rw [ite_cond_true]; exact fun hcon => Intent.noConfusion hcon
    rw [ite_cond_false]
    rw [h16, Bool.false_or] at hany
    cases h17 : (volAbsSearch n).isSome
    case true => rw [ite_cond_true]; exact fun hcon => Intent.noConfusion hcon
    rw [ite_cond_false]
    rw [h17, Bool.false_or] at hany
    cases h18 : containsSub (str "brightness up") n
    case true => rw [ite_cond_true]; exact fun hcon => Intent.noConfusion hcon
    rw [ite_cond_false]
    rw [h18, Bool.false_or] at hany
    cases h19 : containsSub (str "brightness down") n
    case true => rw [ite_cond_true]; exact fun hcon => Intent.noConfusion hcon
    rw [ite_cond_false]
    rw [h19, Bool.false_or] at hany
    cases h20 : containsSub (str "screenshot") n
    case true => rw [ite_cond_true]; exact fun hcon => Intent.noConfusion hcon
    rw [ite_cond_false]
    rw [h20, Bool.false_or] at hany
    cases h21 : containsSub (str "shutdown") n
    case true => rw [ite_cond_true]; exact fun hcon => Intent.noConfusion hcon
    rw [ite_cond_false]
    rw [h21, Bool.false_or] at hany
    cases h22 : containsSub (str "restart") n
    case true => rw [ite_cond_true]; exact fun hcon => Intent.noConfusion hcon
    rw [ite_cond_false]
    rw [h22, Bool.false_or] at hany
    cases h23 : containsSub (str "sleep") n
    case true => rw [ite_cond_true]; exact fun hcon => Intent.noConfusion hcon
    rw [ite_cond_false]
    rw [h23, Bool.false_or] at hany
    cases h24 : containsSub (str "internet") n
    case true => rw [ite_cond_true]; exact fun hcon => Intent.noConfusion hcon
    rw [ite_cond_false]
    rw [h24, Bool.false_or] at hany
    cases h25 : containsSub (str "cpu") n
    case true => rw [ite_cond_true]; exact fun hcon => Intent.noConfusion hcon
    rw [ite_cond_false]
    rw [h25, Bool.false_or] at hany
    cases h26 : containsSub (str "ram") n
    case true => rw [ite_cond_true]; exact fun hcon => Intent.noConfusion hcon
    rw [ite_cond_false]
    rw [h26, Bool.false_or] at hany
    cases h27 : hasFileKeyword n
    case true =>
      rw [ite_cond_true]
      cases hf : fileTermShort n
      case true => rw [ite_cond_true]; exact fun hcon => Intent.noConfusion hcon
      rw [ite_cond_false]; exact fun hcon => Intent.noConfusion hcon
    rw [h27] at hany
    exact Bool.noConfusion hany

/-- Witness for C1: an unmatched utterance goes to the fallback and a
matched one does not. -/
theorem c1_total_fallback_witness :
    route (str "xyzzy abc") = Intent.gemini (normalizeCmd (str "xyzzy abc")) ∧
    route (str "Volume Up") ≠ Intent.gemini (normalizeCmd (str "Volume Up")) :=
  ⟨(c1_total_fallback (str "xyzzy abc")).1 (by decide),
   (c1_total_fallback (str "Volume Up")).2 (by decide)⟩

/-- C4: a normalized command containing "unmute" that matches no earlier
rule is dispatched to the unmute action and never to the mute action: the
mute rule requires "unmute" absent and is evaluated first. -/
theorem c4_unmute_never_mute (q : Str)
    (hb : matchesBeforeMute (normalizeCmd q) = false)
    (hu : containsSub (str "unmute") (normalizeCmd q) = true) :
    route q = Intent.volume (str "unmute") ∧
    route q ≠ Intent.volume (str "mute") := by
  have hmain : route q = Intent.volume (str "unmute") := by
    unfold route
    unfold matchesBeforeMute at hb
    simp only [Bool.or_eq_false_iff] at hb
    obtain ⟨⟨⟨⟨⟨⟨⟨⟨⟨⟨⟨⟨⟨g1, g2⟩, g3⟩, g4⟩, g5⟩, g6⟩, g7⟩, g8⟩, g9⟩, g10⟩, g11⟩, g12⟩, g13⟩, g14⟩ := hb
    unfold routeCore
    rw [g1, ite_cond_false, g2, ite_cond_false, g3, ite_cond_false,
        g4, ite_cond_false, g5, ite_cond_false, g6, ite_cond_false,
        g7, ite_cond_false, g8, ite_cond_false, g9, ite_cond_false,
        g10, ite_cond_false, g11, ite_cond_false, g12, ite_cond_false,
        g13, ite_cond_false, g14, ite_cond_false,
        hu, Bool.not_true, Bool.and_false, ite_cond_false, ite_cond_true]
  refine ⟨hmain, ?_⟩
  rw [hmain]
  intro hcon
  exact absurd (Intent.volume.inj hcon) (by decide)

/-- Witness for C4 at "unmute please". -/
theorem c4_unmute_never_mute_witness :
    route (str "unmute please") = Intent.volume (str "unmute") ∧
    route (str "unmute please") ≠ Intent.volume (str "mute") :=
  c4_unmute_never_mute (str "unmute please") (by decide) (by decide)

/-- C7: a file-search-triggered command whose stripped search term is
shorter than two characters gets the missing-parameter Response directly,
for every environment, so the file-search effector is never consulted. -/
theorem c7_short_term_no_search (q : Str)
    (hb : matchesBeforeFileSearch (normalizeCmd q) = false)
    (hk : hasFileKeyword (normalizeCmd q) = true)
    (hshort : (stripFileTerm (normalizeCmd q)).length < 2) :
    route q = Intent.fileMissing ∧
    ∀ env : TurnEnv, process_command env q =
      ⟨str "Please specify a file name, keyword, or part of it to search.",
       none, false⟩ := by
  have hft : fileTermShort (normalizeCmd q) = true := by
    simp only [fileTermShort, decide_eq_true_eq]
    exact Or.inr hshort
  have hmain : route q = Intent.fileMissing := by
    unfold route
    unfold matchesBeforeFileSearch at hb
    simp only [Bool.or_eq_false_iff] at hb
    obtain ⟨⟨⟨⟨⟨⟨⟨⟨⟨⟨⟨⟨f1, f2⟩, f3⟩, f4⟩, f5⟩, f6⟩, f7⟩, f8⟩, f9⟩, f10⟩, f11⟩, f12⟩, f13⟩ := hb
    unfold matchesBeforeMute at f1
    simp only [Bool.or_eq_false_iff] at f1
    obtain ⟨⟨⟨⟨⟨⟨⟨⟨⟨⟨⟨⟨⟨g1, g2⟩, g3⟩, g4⟩, g5⟩, g6⟩, g7⟩, g8⟩, g9⟩, g10⟩, g11⟩, g12⟩, g13⟩, g14⟩ := f1
    unfold routeCore
    rw [g1, ite_cond_false, g2, ite_cond_false, g3, ite_cond_false,
        g4, ite_cond_false, g5, ite_cond_false, g6, ite_cond_false,
        g7, ite_cond_false, g8, ite_cond_false, g9, ite_cond_false,
        g10, ite_cond_false, g11, ite_cond_false, g12, ite_cond_false,
        g13, ite_cond_false, g14, ite_cond_false,
        f2, ite_cond_false, f3, ite_cond_false, f4, ite_cond_false,
        f5, ite_cond_false, f6, ite_cond_false, f7, ite_cond_false,
        f8, ite_cond_false, f9, ite_cond_false, f10, ite_cond_false,
        f11, ite_cond_false, f12, ite_cond_false, f13, ite_cond_false,
        hk, ite_cond_true, hft, ite_cond_true]
  refine ⟨hmain, fun env => ?_⟩
  unfold process_command
  rw [hmain]
  rfl

/-- Witness for C7 at "find a" (stripped term "a", length 1). -/
theorem c7_short_term_no_search_witness :
    route (str "find a") = Intent.fileMissing ∧
    process_command envEmpty (str "find a") =
      ⟨str "Please specify a file name, keyword, or part of it to search.",
       none, false⟩ := by
  have h := c7_short_term_no_search (str "find a") (by decide) (by decide) (by decide)
  exact ⟨h.1, h.2 envEmpty⟩

/-- The typed fallback returns an in-range value or -1. -/
theorem typedFallback_range (m : Int) (t : Option Int) :
    (0 ≤ typedFallback m t ∧ typedFallback m t ≤ m) ∨ typedFallback m t = -1 := by
  cases t with
  | none => exact Or.inr rfl
  | some k =>
    simp only [typedFallback]
    by_cases hk : 0 ≤ k ∧ k ≤ m
    · rw [if_pos hk]; exact Or.inl hk
    · rw [if_neg hk]; exact Or.inr rfl

/-- The selection dialogue returns an in-range value or -1. -/
theorem getSelection_range (m : Int) (v : Option Str) (t : Option Int) :
    (0 ≤ get_user_selection_via_voice_or_input m v t ∧
     get_user_selection_via_voice_or_input m v t ≤ m) ∨
    get_user_selection_via_voice_or_input m v t = -1 := by
  cases v with
  | none => exact typedFallback_range m t
  | some said =>
    simp only [get_user_selection_via_voice_or_input]
    by_cases hs : 0 ≤ parse_spoken_number said ∧ parse_spoken_number said ≤ m
    · rw [if_pos hs]; exact Or.inl hs
    · rw [if_neg hs]; exact typedFallback_range m t

/-- C5: for a routed file-search turn, zero candidates produce the
"not found" Response naming the term with no file opened and no
disambiguation, exactly one candidate is opened immediately with no
disambiguation, and only more than one candidate invokes the
disambiguation dialogue. -/
theorem c5_candidate_count_dispatch (env : TurnEnv) (q term : Str)
    (hroute : route q = Intent.fileSearch term) :
    (env.search term = [] → process_command env q =
      ⟨str "No files found matching \x27" ++ term ++ str "\x27.",
       none, false⟩) ∧
    (∀ p, env.search term = [p] → process_command env q =
      ⟨str "Found and " ++ env.openMsg p, some p, false⟩) ∧
    (1 < (env.search term).length →
      (process_command env q).disambiguated = true) := by
  unfold process_command
  rw [hroute]
  simp only [dispatch]
  refine ⟨?_, ?_, ?_⟩
  · intro h0
    rw [if_pos h0]
  · intro p hp
    rw [hp]
    rw [if_neg (by simp), if_pos (show ([p] : List Str).length = 1 from rfl)]
    rfl
  · intro hN
    have hne : env.search term ≠ [] := by
      intro he
      rw [he] at hN
      simp at hN
    have hlen1 : ¬((env.search term).length = 1) := by omega
    rw [if_neg hne, if_neg hlen1]
    split_ifs <;> rfl

/-- Witness for C5: one candidate auto-opens; zero candidates report. -/
theorem c5_candidate_count_dispatch_witness :
    process_command envOne (str "find report") =
      ⟨str "Found and " ++ str "Opening: " ++ str "a.txt",
       some (str "a.txt"), false⟩ ∧
    process_command envEmpty (str "find report") =
      ⟨str "No files found matching \x27" ++ str "report" ++ str "\x27.",
       none, false⟩ ∧
    (process_command envThree (str "find report")).disambiguated = true := by
  refine ⟨?_, ?_, ?_⟩
  · have h := (c5_candidate_count_dispatch envOne (str "find report")
      (str "report") (by decide)).2.1 (str "a.txt") (by decide)
    rw [h]
    decide
  · exact (c5_candidate_count_dispatch envEmpty (str "find report")
      (str "report") (by decide)).1 (by decide)
  · exact (c5_candidate_count_dispatch envThree (str "find report")
      (str "report") (by decide)).2.2 (by decide)

/-- C6: after disambiguation over more than one candidate, Selection 0
cancels and opens nothing, a Selection outside [1, N] (including the
unresolved -1) reports an invalid choice and opens nothing, a Selection in
[1, N] opens exactly the Selection-th candidate (1-based), and the
selection dialogue never returns a value outside [0, N] together
with -1. -/
theorem c6_selection_outcomes (env : TurnEnv) (q term : Str) (sel : Int)
    (hroute : route q = Intent.fileSearch term)
    (hN : 1 < (env.search term).length)
    (hsel : get_user_selection_via_voice_or_input
      (Int.ofNat (env.search term).length) env.selVoice env.selTyped = sel) :
    (sel = 0 → process_command env q =
      ⟨str "Cancelled. No file opened.", none, true⟩) ∧
    (sel ≠ 0 → ¬(1 ≤ sel ∧ sel ≤ Int.ofNat (env.search term).length) →
      process_command env q =
        ⟨str "Invalid choice. No file opened.", none, true⟩) ∧
    (1 ≤ sel → sel ≤ Int.ofNat (env.search term).length →
      process_command env q =
        ⟨str "Opened: " ++ (env.search term).getD (sel.toNat - 1) [],
         some ((env.search term).getD (sel.toNat - 1) []), true⟩) ∧
    ((0 ≤ sel ∧ sel ≤ Int.ofNat (env.search term).length) ∨ sel = -1) := by
  have hne : env.search term ≠ [] := by
    intro he
    rw [he] at hN
    simp at hN
  have hlen1 : ¬((env.search term).length = 1) := by omega
  unfold process_command
  rw [hroute]
  simp only [dispatch]
  rw [if_neg hne, if_neg hlen1, hsel]
  refine ⟨?_, ?_, ?_, ?_⟩
  · intro h0
    rw [if_pos h0]
  · intro hz hr
    rw [if_neg hz, if_neg hr]
  · intro h1 h2
    rw [if_neg (by omega : ¬ sel = 0), if_pos ⟨h1, h2⟩]
  · rw [← hsel]
    exact getSelection_range _ _ _

/-- Witness for C6: with three candidates and typed selection 2 the second
candidate is opened. -/
theorem c6_selection_outcomes_witness :
    process_command envThree (str "find report") =
      ⟨str "Opened: " ++ str "b.txt", some (str "b.txt"), true⟩ := by
  have h := (c6_selection_outcomes envThree (str "find report")
    (str "report") 2 (by decide) (by decide) (by decide)).2.2.1
    (by decide) (by decide)
  rw [h]
  decide

/-- C8 (amended): every turn whose Response text is non-empty renders the
transcript and the Response through the display path and raises exactly
one voice attempt after it, falling back to local TTS when the remote
backend fails; the output path is skipped only for an empty Response. -/
theorem c8_nonempty_output_order (u k o : Bool) (env : TurnEnv) (q : Str)
    (h : (process_command env q).response ≠ []) :
    ∃ V, handle_query u k o env q =
      Emission.display (str "User: " ++ q) ::
      Emission.display (str "Leo: " ++ (process_command env q).response) ::
      Emission.display ((process_command env q).response) ::
      Emission.toast ((process_command env q).response) :: V ∧
      (V = [Emission.voiceRemote ((process_command env q).response)] ∨
       V = [Emission.fallbackNote,
            Emission.voiceLocal ((process_command env q).response)] ∨
       V = [Emission.voiceLocal ((process_command env q).response)]) := by
  unfold handle_query speak_and_print
  rw [if_neg h]
  cases u <;> cases k <;> cases o <;>
    first
      | exact ⟨[Emission.voiceRemote _], rfl, Or.inl rfl⟩
      | exact ⟨[Emission.fallbackNote, Emission.voiceLocal _], rfl,
          Or.inr (Or.inl rfl)⟩
      | exact ⟨[Emission.voiceLocal _], rfl, Or.inr (Or.inr rfl)⟩

/-- Witness for the amended C8 on a non-empty fallback Response. -/
theorem c8_nonempty_output_order_witness :
    ∃ V, handle_query true true true envEmpty (str "xyzzy") =
      Emission.display (str "User: " ++ str "xyzzy") ::
      Emission.display (str "Leo: " ++
        (process_command envEmpty (str "xyzzy")).response) ::
      Emission.display ((process_command envEmpty (str "xyzzy")).response) ::
      Emission.toast ((process_command envEmpty (str "xyzzy")).response) :: V ∧
      (V = [Emission.voiceRemote
              ((process_command envEmpty (str "xyzzy")).response)] ∨
       V = [Emission.fallbackNote,
            Emission.voiceLocal
              ((process_command envEmpty (str "xyzzy")).response)] ∨
       V = [Emission.voiceLocal
              ((process_command envEmpty (str "xyzzy")).response)]) :=
  c8_nonempty_output_order true true true envEmpty (str "xyzzy") (by decide)

/-- Counterexample to C8 as stated: a turn whose Response text is empty
emits nothing through `speak_and_print` — neither the rendered table nor
any voice attempt — so the claim that no branch of the output path skips
emission even for an empty Response is false on the code. -/
theorem c8_empty_response_skips_emission :
    (process_command envBlank (str "xyzzy")).response = [] ∧
    speak_and_print true true true
      ((process_command envBlank (str "xyzzy")).response) = [] ∧
    handle_query true true true envBlank (str "xyzzy") =
      [Emission.display (str "User: " ++ str "xyzzy"),
       Emission.display (str "Leo: ")] ∧
    (handle_query true true true envBlank (str "xyzzy")).any isVoiceE
      = false := by
  refine ⟨by decide, by decide, ?_, by decide⟩
  decide

/-- A list is a Boolean prefix of itself followed by anything. -/
theorem isPrefixOf_append_self (l r : Str) : l.isPrefixOf (l ++ r) = true := by
  rw [ List.isPrefixOf_iff_prefix]
  exact List.prefix_append l r

/-- When no occurrence of `pat` starts inside `pre`, `afterFirst` cuts
exactly after the exhibited occurrence. -/
theorem afterFirst_first_occurrence (pat pre suf : Str) (hpat : pat ≠ [])
    (hfirst : ∀ i, i < pre.length →
      pat.isPrefixOf ((pre ++ pat ++ suf).drop i) = false) :
    afterFirst pat (pre ++ pat ++ suf) = suf := by
  induction pre with
  | nil =>
    cases hp : pat with
    | nil => exact absurd hp hpat
    | cons p pr =>
      subst hp
      simp only [List.nil_append, List.cons_append, afterFirst]
      have hpre := isPrefixOf_append_self (p :: pr) suf
      simp only [List.cons_append] at hpre
      rw [hpre, ite_cond_true]
      have hdrop := List.drop_left (p :: pr) suf
      simpa only [List.cons_append] using hdrop
  | cons a pre' ih =>
    have h0 := hfirst 0 (by simp)
    simp only [List.drop_zero, List.cons_append] at h0
    simp only [List.cons_append, afterFirst]
    rw [h0, ite_cond_false]
    apply ih
    intro i hi
    have hnext := hfirst (i + 1) (by simpa using Nat.succ_lt_succ hi)
    simpa only [List.cons_append, List.drop_succ_cons] using hnext

/-- A list that exhibits an occurrence of a non-empty `pat` contains it. -/
theorem containsSub_append_self (pat pre suf : Str) (hpat : pat ≠ []) :
    containsSub pat (pre ++ pat ++ suf) = true := by
  induction pre with
  | nil =>
    cases hp : pat with
    | nil => exact absurd hp hpat
    | cons p pr =>
      subst hp
      simp only [List.nil_append, List.cons_append, containsSub]
      have hpre := isPrefixOf_append_self (p :: pr) suf
      simp only [List.cons_append] at hpre
      rw [hpre, Bool.true_or]
  | cons a pre' ih =>
    simp only [List.cons_append, containsSub, List.append_eq]
    rw [ih, Bool.or_true]

/-- C9: in the wake-word loop, a normalized transcription that contains
the wake word yields exactly the stripped text after its first occurrence
as the candidate query, and when that candidate is non-empty it is the
query dispatched; a transcription without the wake word dispatches
nothing. -/
theorem c9_wake_extraction (t f pre suf : Str) :
    (pyStrip (pyLower t) = pre ++ wakeWord ++ suf →
      (∀ i, i < pre.length →
        wakeWord.isPrefixOf ((pyStrip (pyLower t)).drop i) = false) →
      wakeCandidate (pyStrip (pyLower t)) = some (pyStrip suf) ∧
      (pyStrip suf ≠ [] → wakeIteration t f = some (pyStrip suf))) ∧
    (containsSub wakeWord (pyStrip (pyLower t)) = false →
      wakeIteration t f = none) := by
  constructor
  · intro hdec hfirst
    have hwne : wakeWord ≠ [] := by decide
    have hafter : afterFirst wakeWord (pyStrip (pyLower t)) = suf := by
      rw [hdec]
      apply afterFirst_first_occurrence wakeWord pre suf hwne
      intro i hi
      have hh := hfirst i hi
      rwa [hdec] at hh
    have hcont : containsSub wakeWord (pyStrip (pyLower t)) = true := by
      rw [hdec]
      exact containsSub_append_self wakeWord pre suf hwne
    have hcand : wakeCandidate (pyStrip (pyLower t)) = some (pyStrip suf) := by
      unfold wakeCandidate
      rw [hcont, ite_cond_true, hafter]
    refine ⟨hcand, ?_⟩
    intro hq
    have hsne : pyStrip (pyLower t) ≠ [] := by
      intro he
      rw [he] at hcont
      exact absurd hcont (by decide)
    unfold wakeIteration
    rw [if_neg hsne, hcand]
    dsimp only
    rw [if_neg hq, if_neg hq]
  · intro hnc
    unfold wakeIteration
    by_cases hse : pyStrip (pyLower t) = []
    · rw [if_pos hse]
    · rw [if_neg hse]
      have hcand : wakeCandidate (pyStrip (pyLower t)) = none := by
        unfold wakeCandidate
        rw [hnc, ite_cond_false]
      rw [hcand]

/-- Witness for C9 at "hey leo open google" (wake word present) and
"no wake word here" (absent). -/
theorem c9_wake_extraction_witness :
    wakeCandidate (pyStrip (pyLower (str "hey leo open google"))) =
      some (pyStrip (str " open google")) ∧
    wakeIteration (str "hey leo open google") (str "") =
      some (pyStrip (str " open google")) ∧
    pyStrip (str " open google") = str "open google" ∧
    wakeIteration (str "no wake word here") (str "x") = none := by
  have h := (c9_wake_extraction (str "hey leo open google") (str "")
    (str "hey ") (str " open google")).1 (by decide) (by decide)
  exact ⟨h.1, h.2 (by decide), by decide,
    (c9_wake_extraction (str "no wake word here") (str "x") [] []).2 (by decide)⟩
